import Mathlib

/-!
# gomail: a streaming composer of multipart e-mail bodies

A shallow embedding of `gomail.go` (package `gomail`): the constructor `New`
and the methods `Text`, `Html`, `InlineFile` and `Send` of `Email`.

## How the program is modelled

* A Go `string` is a Lean `String`.  The functions of package `path` split at
  the ASCII bytes `/` and `.`, which in well-formed UTF-8 text are code points
  of their own.
* The collaborators of the package (the SMTP client, `multipart.Writer`,
  `io.Pipe`, the base64 encoder, the file system) are not part of the
  repository.  They are modelled by what the package can observe of them:
  - a `multipart.Writer` is its boundary token, the parts created on it so far
    (header and the bytes written into the part) and whether its closing
    delimiter has been emitted;
  - every other call to a collaborator is appended to a log (`State.calls`), in
    program order: SMTP commands, raw writes to the body stream, the creation
    of the pipe, the launch of the copying goroutine, file opens and closes,
    and every close attempt of `Send`;
  - what a collaborator answers (an error or not, the boundary token that
    `multipart.NewWriter` draws, the content of a file) is an argument of the
    operation that asks for it.
* The results that the source discards (`msg.Mail`, `msg.Rcpt`, `CreatePart`,
  `fmt.Fprint*`) are discarded here too; creating a part and writing into the
  part just created are taken to succeed and to return.
* A Go panic is the result `Result.panic`; the state returned with it is the
  state at the moment of the panic.
* The goroutine `go io.Copy(htmlOut, bndIn)` is logged when it is launched; its
  interleaving with the calling goroutine is not modelled.
* A close need not return.  `e.html.Close()` writes the closing delimiter into
  the pipe, and a write into an `io.Pipe` returns only when a reader has taken
  the bytes: once the copying goroutine has returned (its write into the outer
  part fails as soon as that part is finished, which the next `CreatePart` on
  the top-level writer does), nothing reads the pipe and the write waits for
  ever.  The closes of the top-level writer and of the body stream write to the
  connection, which has no deadline.  So a close answers `CloseAnswer.ok`,
  `CloseAnswer.fails` or `CloseAnswer.blocks`, and a call that waits for ever
  has the result `Result.blocked`, with the state at that moment.
-/

namespace Gomail

/-! ## Package `path` and `strings` -/

/-- Drops leading `/` of a reversed path: the loop of `path.Base` that strips
trailing slashes. -/
def trimSlashes : List Char → List Char
  | [] => []
  | c :: cs => if c = '/' then trimSlashes cs else c :: cs

/-- Walks a reversed path up to the first `/`, collecting what it passes: the
text after the last slash (`path[i+1:]` in `path.Base`). -/
def lastElem : List Char → List Char → List Char
  | [], acc => acc
  | c :: cs, acc => if c = '/' then acc else lastElem cs (c :: acc)

/-- Go `path.Base`: the last element of the path; trailing slashes are removed
first; `"."` for the empty path and `"/"` for a path of slashes only. -/
def Base (path : String) : String :=
  if path = "" then "."
  else
    let p := lastElem (trimSlashes path.data.reverse) []
    if p = [] then "/" else String.mk p

/-- The loop of `path.Ext` over the reversed path: it runs from the end while
the byte is not `/` and returns `path[i:]` at the first `.`. -/
def extScan : List Char → List Char → List Char
  | [], _ => []
  | c :: cs, acc =>
    if c = '/' then [] else if c = '.' then '.' :: acc else extScan cs (c :: acc)

/-- Go `path.Ext`: the suffix beginning at the final dot of the final element
of the path, the dot included; empty if there is no dot. -/
def Ext (path : String) : String := String.mk (extScan path.data.reverse [])

/-- Lower-casing of one rune as `strings.ToLower` does it: the ASCII letters by
the ASCII rule, every other ASCII rune unchanged, a rune beyond ASCII by the
Unicode case table `table` (the table of package `unicode`, a parameter). -/
def lowerRune (table : Char → Char) (c : Char) : Char :=
  if c.toNat < 128 then c.toLower else table c

/-- Go `strings.ToLower`. -/
def ToLower (table : Char → Char) (s : String) : String :=
  String.mk (s.data.map (lowerRune table))

/-! ## Collaborators -/

/-- A Go `error` value, by its message. -/
abbrev Error := String

/-- The Go type `textproto.MIMEHeader`: keys with their values. -/
abbrev MIMEHeader := List (String × List String)

/-- The values stored under `key`, as `header[key]` in Go. -/
def MIMEHeader.values (h : MIMEHeader) (key : String) : List String :=
  match h.find? (fun kv => kv.1 == key) with
  | some kv => kv.2
  | none => []

/-- One part of a multipart body: its header and the bytes written into it by
the goroutine that created it. -/
structure Part where
  header : MIMEHeader
  body : String
  deriving DecidableEq

/-- A `multipart.Writer`: its boundary token, the parts created on it, and
whether `Close` has emitted its closing delimiter. -/
structure Writer where
  boundary : String
  parts : List Part
  closed : Bool
  deriving DecidableEq

/-- Go `multipart.NewWriter`; `boundary` is the random token it draws. -/
def NewWriter (boundary : String) : Writer := ⟨boundary, [], false⟩

/-- Go `(*multipart.Writer).Boundary`. -/
def Writer.Boundary (w : Writer) : String := w.boundary

/-- Go `(*multipart.Writer).CreatePart`: a new, empty part with the given
header; returns the writer and the handle (index) of the new part. -/
def Writer.CreatePart (w : Writer) (header : MIMEHeader) : Writer × Nat :=
  ({ w with parts := w.parts ++ [⟨header, ""⟩] }, w.parts.length)

/-- Appends `bytes` to the body of the part at index `i`. -/
def appendBody : List Part → Nat → String → List Part
  | [], _, _ => []
  | p :: ps, 0, bytes => { p with body := p.body ++ bytes } :: ps
  | p :: ps, i + 1, bytes => p :: appendBody ps i bytes

/-- A write through a part handle.  Only the part created last accepts bytes
(an earlier one is finished, and the write is refused). -/
def Writer.write (w : Writer) (part : Nat) (bytes : String) : Writer :=
  if part + 1 = w.parts.length then { w with parts := appendBody w.parts part bytes }
  else w

/-- The body stream `smtp.Client.Data` returns (an `io.WriteCloser`). -/
structure WriteCloser where
  closed : Bool
  deriving DecidableEq

/-- What `Send` can close. -/
inductive Closer where
  | related
  | alternative
  | body
  deriving DecidableEq

/-- A logged call to a collaborator. -/
inductive Call where
  | Dial (addr : String)
  | Mail (frm : String)
  | Rcpt (rcpt : String)
  | Data
  | Fprintf (bytes : String)
  | Pipe
  | GoCopy
  | Open (path : String)
  | CloseFile
  | Close (c : Closer)
  deriving DecidableEq

/-- The bytes written to the body stream by the logged `fmt.Fprintf` calls, in
order. -/
def bodyBytes : List Call → String
  | [] => ""
  | Call.Fprintf bytes :: cs => bytes ++ bodyBytes cs
  | _ :: cs => bodyBytes cs

/-- The close attempts among the logged calls, in order. -/
def closeAttempts : List Call → List Closer
  | [] => []
  | Call.Close c :: cs => c :: closeAttempts cs
  | _ :: cs => closeAttempts cs

/-- What the SMTP collaborator answers during `New`, and the token that
`multipart.NewWriter` draws. -/
structure Transport where
  dial : Option Error
  mail : Option Error
  rcpt : Option Error
  data : Option Error
  boundary : String

/-- What an opened file gives to `InlineFile`: the base64 text that reaches the
part while `io.Copy` runs, the error of `io.Copy` if any, and the text the
encoder still writes when it is closed. -/
structure File where
  copied : String
  copyErr : Option Error
  flushed : String

/-- The file system and the Unicode case table, as `InlineFile` sees them. -/
structure FileSystem where
  unicodeLower : Char → Char
  Open : String → Except Error File

/-- What a close does when it is attempted: it returns no error, it returns an
error, or it never returns. -/
inductive CloseAnswer where
  | ok
  | fails (err : Error)
  | blocks
  deriving DecidableEq

/-- What each close answers when `Send` attempts it. -/
structure CloseResults where
  related : CloseAnswer
  alternative : CloseAnswer
  body : CloseAnswer

/-- The answer to the close of `c`. -/
def CloseResults.answer (r : CloseResults) : Closer → CloseAnswer
  | .related => r.related
  | .alternative => r.alternative
  | .body => r.body

/-! ## The package -/

/-- The struct `Email`; a nil field is `none`. -/
structure Email where
  data : Option WriteCloser
  alternative : Option Writer
  html : Option Writer
  deriving DecidableEq

/-- An `Email` together with the log of the calls made so far. -/
structure State where
  e : Email
  calls : List Call
  deriving DecidableEq

/-- The outcome of a call: a normal return, a panic, or no return at all (the
call waits for ever on a collaborator). -/
inductive Result (α : Type) where
  | ret (a : α)
  | panic (msg : String)
  | blocked
  deriving DecidableEq

/-- The message of the Go runtime when a nil pointer is dereferenced. -/
def nilDereference : String :=
  "runtime error: invalid memory address or nil pointer dereference"

/-- Go `New` (its parameters `from` and `to` are `frm` and `rcpt` here).  Returns
the log of the calls made and either the error or the new `Email`. -/
def New (t : Transport) (server frm rcpt subject : String) : List Call × Except Error Email :=
  let server := if "" = server then "localhost:25" else server
  let calls := [Call.Dial server]
  match t.dial with
  | some err => (calls, .error err)
  | none =>
    let calls := calls ++ [Call.Mail frm]
    let calls := calls ++ [Call.Rcpt rcpt]
    let calls := calls ++ [Call.Data]
    match t.data with
    | some err => (calls, .error err)
    | none =>
      let m := NewWriter t.boundary
      let calls := calls ++ [Call.Fprintf ("To: <" ++ rcpt ++ ">\n")]
      let calls := calls ++ [Call.Fprintf ("Subject: " ++ subject ++ "\n")]
      let calls := calls ++ [Call.Fprintf "MIME-Version: 1.0\n"]
      let calls := calls ++
        [Call.Fprintf ("Content-Type: multipart/alternative; boundary=\"" ++ m.Boundary ++ "\"" ++ "\n")]
      let calls := calls ++ [Call.Fprintf "\n"]
      let calls := calls ++ [Call.Fprintf "This is a multi-part message in MIME format.\n"]
      (calls, .ok { data := some ⟨false⟩, alternative := some m, html := none })

/-- Go `(*Email).Send`.  A close that returns an error or never returns ends the
call there. -/
def Email.Send (r : CloseResults) (s : State) : State × Result (Option Error) :=
  let afterHtml : State × Option (Result (Option Error)) :=
    match s.e.html with
    | some w =>
      let calls := s.calls ++ [Call.Close .related]
      match r.related with
      | .blocks => ({ s with calls := calls }, some .blocked)
      | .fails err => ({ s with calls := calls }, some (.ret (some err)))
      | .ok => ({ e := { s.e with html := some { w with closed := true } }, calls := calls }, none)
    | none => (s, none)
  match afterHtml with
  | (s, some out) => (s, out)
  | (s, none) =>
    let afterAlternative : State × Option (Result (Option Error)) :=
      match s.e.alternative with
      | some w =>
        let calls := s.calls ++ [Call.Close .alternative]
        match r.alternative with
        | .blocks => ({ s with calls := calls }, some .blocked)
        | .fails err => ({ s with calls := calls }, some (.ret (some err)))
        | .ok =>
          ({ e := { s.e with alternative := some { w with closed := true } }, calls := calls }, none)
      | none => (s, none)
    match afterAlternative with
    | (s, some out) => (s, out)
    | (s, none) =>
      match s.e.data with
      | none => (s, .panic nilDereference)
      | some d =>
        let calls := s.calls ++ [Call.Close .body]
        match r.body with
        | .blocks => ({ s with calls := calls }, .blocked)
        | .fails err => ({ s with calls := calls }, .ret (some err))
        | .ok => ({ e := { s.e with data := some { d with closed := true } }, calls := calls }, .ret none)

/-- Go `(*Email).Text`. -/
def Email.Text (s : State) (text : String) : State × Result Unit :=
  match s.e.alternative with
  | none => (s, .panic nilDereference)
  | some alternative =>
    let (alternative, out) :=
      alternative.CreatePart [("Content-Type", ["text/plain; charset=utf-8"])]
    let alternative := alternative.write out (text ++ "\n")
    ({ s with e := { s.e with alternative := some alternative } }, .ret ())

/-- Go `(*Email).Html`; `boundary` is the token `multipart.NewWriter` draws for
the nested writer.  The returned pointer is the receiver. -/
def Email.Html (boundary : String) (s : State) (html : String) : State × Result Email :=
  match s.e.html with
  | some _ => (s, .panic "Cannot call Html twice on Email")
  | none =>
    let calls := s.calls ++ [Call.Pipe]
    let related := NewWriter boundary
    match s.e.alternative with
    | none => ({ e := { s.e with html := some related }, calls := calls }, .panic nilDereference)
    | some alternative =>
      let (alternative, _) := alternative.CreatePart
        [("Content-Type", ["multipart/related; boundary=\"" ++ related.Boundary ++ "\""])]
      let calls := calls ++ [Call.GoCopy]
      let (related, inner) := related.CreatePart [("Content-Type", ["text/html"])]
      let related := related.write inner (html ++ "\n")
      let e : Email := { s.e with alternative := some alternative, html := some related }
      ({ e := e, calls := calls }, .ret e)

/-- The `switch ext` of `InlineFile`, with its default. -/
def mimeTypeOf (ext : String) : String :=
  if ext = "png" then "image/png"
  else if ext = "gif" then "image/gif"
  else if ext = "jpg" then "image/jpeg"
  else "image/jpg"

/-- Go `(*Email).InlineFile`.  The result is the pair the method returns: the
receiver and no error, or no `Email` and the error. -/
def Email.InlineFile (fs : FileSystem) (s : State) (filename : String) :
    State × Result (Option Email × Option Error) :=
  match s.e.html with
  | none => (s, .panic "You must call Html(..) before you can call InlineFile")
  | some related =>
    let name := Base filename
    let ext := ToLower fs.unicodeLower (Ext name)
    let mimeType := mimeTypeOf ext
    let (related, inner) := related.CreatePart
      [("Content-Type", [mimeType ++ "; name=\"" ++ name ++ "\""]),
       ("Content-ID", ["<" ++ name ++ ">"]),
       ("Content-Disposition", ["inline; filename=\"" ++ name ++ "\""]),
       ("Content-Transfer-Encoding", ["base64"])]
    let calls := s.calls ++ [Call.Open filename]
    match fs.Open filename with
    | .error err => ({ e := { s.e with html := some related }, calls := calls }, .ret (none, some err))
    | .ok fileIn =>
      let related := related.write inner fileIn.copied
      match fileIn.copyErr with
      | some err =>
        ({ e := { s.e with html := some related }, calls := calls ++ [Call.CloseFile] },
          .ret (none, some err))
      | none =>
        let related := related.write inner fileIn.flushed
        let e : Email := { s.e with html := some related }
        ({ e := e, calls := calls ++ [Call.CloseFile] }, .ret (some e, none))

/-! ## Sequences of calls -/

/-- One call on an `Email`, with what the collaborators answer during it. -/
inductive Op where
  | Text (text : String)
  | Html (boundary : String) (html : String)
  | InlineFile (fs : FileSystem) (filename : String)
  | Send (r : CloseResults)

/-- Whether a call returned. -/
def Result.returned {α : Type} : Result α → Bool
  | .ret _ => true
  | .panic _ => false
  | .blocked => false

/-- Performs one call: the state after it and whether it returned (an error
value is a return; `false` is a panic or a call that never returns). -/
def Op.step : Op → State → State × Bool
  | .Text text, s => let r := Email.Text s text; (r.1, r.2.returned)
  | .Html boundary html, s => let r := Email.Html boundary s html; (r.1, r.2.returned)
  | .InlineFile fs filename, s => let r := Email.InlineFile fs s filename; (r.1, r.2.returned)
  | .Send r, s => let x := Email.Send r s; (x.1, x.2.returned)

/-- Performs the calls in order; `none` as soon as one of them panics or does
not return. -/
def run : List Op → State → Option State
  | [], s => some s
  | op :: ops, s =>
    match op.step s with
    | (s, true) => run ops s
    | (_, false) => none

/-- An `Email` as `New` builds it: the body stream and the top-level writer are
present. -/
def WellFormed (e : Email) : Prop := e.data.isSome = true ∧ e.alternative.isSome = true

/-- The closes `Send` is to attempt, innermost first: the related writer if
there is one, the alternative writer, the body stream. -/
def closeOrder (e : Email) : List Closer :=
  (if e.html.isSome then [Closer.related] else []) ++ [Closer.alternative, Closer.body]

/-- Attempts the closes in order and stops at the first that fails or does not
return: the closes attempted, and the outcome (the error of the failing close,
no return, or success after the last). -/
def attemptInOrder (answer : Closer → CloseAnswer) :
    List Closer → List Closer × Result (Option Error)
  | [] => ([], .ret none)
  | c :: cs =>
    match answer c with
    | .fails err => ([c], .ret (some err))
    | .blocks => ([c], .blocked)
    | .ok => let rest := attemptInOrder answer cs; (c :: rest.1, rest.2)

/-- A transport on which every step succeeds. -/
def Transport.allOk (boundary : String) : Transport := ⟨none, none, none, none, boundary⟩

/-- A file system with no file, and a case table that changes nothing. -/
def FileSystem.empty : FileSystem := ⟨id, fun _ => .error "no such file or directory"⟩

/-- The state `New` leaves when every transport step succeeds, for the
recipient `a@example.com` and the subject `Hi`. -/
def sampleState : State :=
  match New (Transport.allOk "A") "" "me@example.com" "a@example.com" "Hi" with
  | (calls, .ok e) => ⟨e, calls⟩
  | (calls, .error _) => ⟨⟨none, none, none⟩, calls⟩

/-- The sample state after `Html "<b>hi</b>"`. -/
def sampleHtmlState : State := (Email.Html "R" sampleState "<b>hi</b>").1

/-- The `Content-Type` values of the part created last on the related writer. -/
def declaredContentType (s : State) : List String :=
  match s.e.html with
  | none => []
  | some related =>
    match related.parts.getLast? with
    | none => []
    | some part => part.header.values "Content-Type"

/-- A file system that holds one file, and a case table that changes nothing. -/
def FileSystem.single (path : String) (file : File) : FileSystem :=
  ⟨id, fun p => if p = path then .ok file else .error "no such file or directory"⟩

/-- A sequence of calls on the sample state: a text, the HTML, an inline file
that does not exist, and the send with a failing close of the body stream. -/
def sampleOps : List Op :=
  [Op.Text "hello", Op.Html "R" "<b>hi</b>", Op.InlineFile FileSystem.empty "logo.png",
    Op.Send ⟨.ok, .ok, .fails "connection reset"⟩]

/-- The calls after which nothing reads the pipe: the HTML, then a text (its
`CreatePart` finishes the outer related part), then an inline file that does not
exist (the copying goroutine takes the header of its part from the pipe, fails to
write it into the finished outer part and returns). -/
def stalledOps : List Op :=
  [Op.Html "R" "<b>hi</b>", Op.Text "hello", Op.InlineFile FileSystem.empty "nope.png"]

/-- The sample state after `stalledOps`. -/
def stalledState : State :=
  match run stalledOps sampleState with
  | some s => s
  | none => sampleState

/-- The sample state after `sampleOps`. -/
def sampleFinalState : State :=
  match run sampleOps sampleState with
  | some s => s
  | none => sampleState

/-! ## Parts and handles -/

/-- A write through the handle of the last part reaches that part. -/
theorem appendBody_last (ps : List Part) (p : Part) (bytes : String) :
    appendBody (ps ++ [p]) ps.length bytes = ps ++ [{ p with body := p.body ++ bytes }] := by
  induction ps with
  | nil => rfl
  | cons q qs ih => simp [appendBody, ih]

/-- Creating a part and writing through the handle returned gives one new part
with exactly the bytes written. -/
theorem write_createPart (w : Writer) (header : MIMEHeader) (bytes : String) :
    (w.CreatePart header).1.write (w.CreatePart header).2 bytes
      = { w with parts := w.parts ++ [⟨header, bytes⟩] } := by
  simp [Writer.CreatePart, Writer.write, appendBody_last]

/-- A further write through the handle of the last part appends to its body. -/
theorem write_last (w : Writer) (p : Part) (bytes : String) :
    ({ w with parts := w.parts ++ [p] } : Writer).write w.parts.length bytes
      = { w with parts := w.parts ++ [{ p with body := p.body ++ bytes }] } := by
  simp [Writer.write, appendBody_last]

/-! ## `New` -/

/-- When the connection fails, `New` returns the error after the single call
to `smtp.Dial`: nothing is written. -/
theorem New_dial_error (t : Transport) (server frm rcpt subject : String) (err : Error)
    (h : t.dial = some err) :
    ∃ addr, New t server frm rcpt subject = ([Call.Dial addr], .error err) := by
  simp [New, h]

/-- When opening the body stream fails, `New` returns the error after the four
SMTP calls: nothing is written. -/
theorem New_data_error (t : Transport) (server frm rcpt subject : String) (err : Error)
    (hdial : t.dial = none) (h : t.data = some err) :
    ∃ addr, New t server frm rcpt subject
      = ([Call.Dial addr, Call.Mail frm, Call.Rcpt rcpt, Call.Data], .error err) := by
  simp [New, hdial, h]

/-- The `Email` that `New` returns. -/
theorem New_ok (t : Transport) (server frm rcpt subject : String) (calls : List Call) (e : Email)
    (h : New t server frm rcpt subject = (calls, .ok e)) :
    e = { data := some ⟨false⟩, alternative := some (NewWriter t.boundary), html := none } := by
  unfold New at h
  cases hd : t.dial with
  | some err => simp [hd] at h
  | none =>
    cases hdata : t.data with
    | some err => simp [hd, hdata] at h
    | none =>
      simp [hd, hdata] at h
      exact h.2.symm

/-- An `Email` returned by `New` is well formed. -/
theorem New_wellFormed (t : Transport) (server frm rcpt subject : String) (calls : List Call)
    (e : Email) (h : New t server frm rcpt subject = (calls, .ok e)) : WellFormed e := by
  rw [New_ok t server frm rcpt subject calls e h]
  exact ⟨rfl, rfl⟩

/-- C8. When connecting and opening the body stream succeed, `New` returns an
`Email` and the bytes it has written to the body stream are, in this order, the
lines `To: <rcpt>`, `Subject: subject`, `MIME-Version: 1.0`,
`Content-Type: multipart/alternative; boundary="B"` with `B` the boundary of the
`alternative` writer stored in the returned `Email`, an empty line and the
preamble line; the returned `Email` has no related writer. -/
theorem New_writes_headers (t : Transport) (server frm rcpt subject : String)
    (hdial : t.dial = none) (hdata : t.data = none) :
    ∃ calls e alternative,
      New t server frm rcpt subject = (calls, .ok e) ∧
      e.alternative = some alternative ∧
      bodyBytes calls =
        "To: <" ++ rcpt ++ ">\n" ++
        ("Subject: " ++ subject ++ "\n") ++
        "MIME-Version: 1.0\n" ++
        ("Content-Type: multipart/alternative; boundary=\"" ++ alternative.Boundary ++ "\"\n") ++
        "\n" ++
        "This is a multi-part message in MIME format.\n" ∧
      e.html = none := by
  simp only [New, hdial, hdata]
  refine ⟨_, _, NewWriter t.boundary, rfl, rfl, ?_, rfl⟩
  simp [bodyBytes, String.append_assoc]
  rw [← String.append_assoc "\n" "MIME-Version: 1.0\n"]
  rfl

/-- The header of the sample message: recipient `a@example.com`, subject `Hi`,
every transport step succeeding. -/
theorem New_writes_headers_witness :
    (Transport.allOk "A").dial = none ∧ (Transport.allOk "A").data = none ∧
    ∃ calls e alternative,
      New (Transport.allOk "A") "" "me@example.com" "a@example.com" "Hi" = (calls, .ok e) ∧
      e.alternative = some alternative ∧
      bodyBytes calls =
        "To: <" ++ "a@example.com" ++ ">\n" ++
        ("Subject: " ++ "Hi" ++ "\n") ++
        "MIME-Version: 1.0\n" ++
        ("Content-Type: multipart/alternative; boundary=\"" ++ alternative.Boundary ++ "\"\n") ++
        "\n" ++
        "This is a multi-part message in MIME format.\n" ∧
      e.html = none :=
  ⟨rfl, rfl,
    New_writes_headers (Transport.allOk "A") "" "me@example.com" "a@example.com" "Hi" rfl rfl⟩

/-- C7, at a transport that rejects MAIL and RCPT and accepts DATA: `New`
discards the results of `msg.Mail` and `msg.Rcpt`, goes on to `msg.Data`, writes
the header and returns an `Email`. -/
theorem New_ignores_failed_MAIL_and_RCPT :
    New ⟨none, some "550 sender rejected", some "503 need MAIL first", none, "A"⟩
        "mx.example.com:25" "me@example.com" "a@example.com" "Hi"
      = ([Call.Dial "mx.example.com:25", Call.Mail "me@example.com", Call.Rcpt "a@example.com",
          Call.Data,
          Call.Fprintf "To: <a@example.com>\n",
          Call.Fprintf "Subject: Hi\n",
          Call.Fprintf "MIME-Version: 1.0\n",
          Call.Fprintf "Content-Type: multipart/alternative; boundary=\"A\"\n",
          Call.Fprintf "\n",
          Call.Fprintf "This is a multi-part message in MIME format.\n"],
         .ok { data := some ⟨false⟩, alternative := some (NewWriter "A"), html := none }) := by
  rfl

/-! ## `Text` and `Html` -/

/-- What `Text` does on an `Email` whose top-level writer is present. -/
theorem Text_eq (s : State) (text : String) (alternative : Writer)
    (h : s.e.alternative = some alternative) :
    Email.Text s text =
      ({ s with e := { s.e with alternative := some { alternative with
          parts := alternative.parts ++
            [⟨[("Content-Type", ["text/plain; charset=utf-8"])], text ++ "\n"⟩] } } },
        .ret ()) := by
  simp only [Email.Text, h, write_createPart]

/-- C6. `Text text` returns, having created exactly one new part on the
`alternative` writer, with the single header
`Content-Type: text/plain; charset=utf-8` and the body `text` followed by one
newline; the related writer, the body stream and the log of calls are as
before. -/
theorem Text_creates_plain_part (s : State) (text : String) (alternative : Writer)
    (h : s.e.alternative = some alternative) :
    (Email.Text s text).2 = .ret () ∧
    (Email.Text s text).1.e.alternative = some { alternative with parts := alternative.parts ++
      [⟨[("Content-Type", ["text/plain; charset=utf-8"])], text ++ "\n"⟩] } ∧
    (Email.Text s text).1.e.html = s.e.html ∧
    (Email.Text s text).1.e.data = s.e.data ∧
    (Email.Text s text).1.calls = s.calls := by
  rw [Text_eq s text alternative h]
  exact ⟨rfl, rfl, rfl, rfl, rfl⟩

/-- The text `hello` on the sample message. -/
theorem Text_creates_plain_part_witness :
    sampleState.e.alternative = some (NewWriter "A") ∧
    (Email.Text sampleState "hello").2 = .ret () ∧
    (Email.Text sampleState "hello").1.e.alternative
      = some { NewWriter "A" with parts := (NewWriter "A").parts ++
        [⟨[("Content-Type", ["text/plain; charset=utf-8"])], "hello" ++ "\n"⟩] } ∧
    (Email.Text sampleState "hello").1.e.html = sampleState.e.html ∧
    (Email.Text sampleState "hello").1.e.data = sampleState.e.data ∧
    (Email.Text sampleState "hello").1.calls = sampleState.calls :=
  ⟨rfl, Text_creates_plain_part sampleState "hello" (NewWriter "A") rfl⟩

/-- What `Html` does on an `Email` that has no related writer yet and whose
top-level writer is present. -/
theorem Html_eq (boundary : String) (s : State) (html : String) (alternative : Writer)
    (hhtml : s.e.html = none) (halt : s.e.alternative = some alternative) :
    Email.Html boundary s html =
      ({ e := { s.e with
            alternative := some { alternative with parts := alternative.parts ++
              [⟨[("Content-Type", ["multipart/related; boundary=\"" ++ boundary ++ "\""])], ""⟩] },
            html := some ⟨boundary, [⟨[("Content-Type", ["text/html"])], html ++ "\n"⟩], false⟩ },
         calls := s.calls ++ [Call.Pipe, Call.GoCopy] },
       .ret { s.e with
            alternative := some { alternative with parts := alternative.parts ++
              [⟨[("Content-Type", ["multipart/related; boundary=\"" ++ boundary ++ "\""])], ""⟩] },
            html := some ⟨boundary, [⟨[("Content-Type", ["text/html"])], html ++ "\n"⟩], false⟩ }) := by
  simp only [Email.Html, hhtml, halt, write_createPart]
  simp [Writer.CreatePart, Writer.Boundary, NewWriter]

/-- C5. On an `Email` on which `Html` has not been called, `Html html` returns
the receiver, now with a related writer; it has created exactly one part on the
`alternative` writer, with the header
`Content-Type: multipart/related; boundary="B"` where `B` is the boundary of
the related writer just created, and exactly one part on the related writer,
with the header `Content-Type: text/html` and the body `html` followed by one
newline. -/
theorem Html_creates_related (boundary : String) (s : State) (html : String)
    (alternative : Writer) (hhtml : s.e.html = none) (halt : s.e.alternative = some alternative) :
    ∃ related,
      (Email.Html boundary s html).2 = .ret (Email.Html boundary s html).1.e ∧
      (Email.Html boundary s html).1.e.html = some related ∧
      related.parts = [⟨[("Content-Type", ["text/html"])], html ++ "\n"⟩] ∧
      (Email.Html boundary s html).1.e.alternative
        = some { alternative with parts := alternative.parts ++
          [⟨[("Content-Type", ["multipart/related; boundary=\"" ++ related.Boundary ++ "\""])],
            ""⟩] } ∧
      (Email.Html boundary s html).1.e.data = s.e.data ∧
      (Email.Html boundary s html).1.calls = s.calls ++ [Call.Pipe, Call.GoCopy] := by
  rw [Html_eq boundary s html alternative hhtml halt]
  exact ⟨_, rfl, rfl, rfl, rfl, rfl, rfl⟩

/-- The HTML `<b>hi</b>` on the sample message. -/
theorem Html_creates_related_witness :
    sampleState.e.html = none ∧ sampleState.e.alternative = some (NewWriter "A") ∧
    ∃ related,
      (Email.Html "R" sampleState "<b>hi</b>").2 = .ret (Email.Html "R" sampleState "<b>hi</b>").1.e ∧
      (Email.Html "R" sampleState "<b>hi</b>").1.e.html = some related ∧
      related.parts = [⟨[("Content-Type", ["text/html"])], "<b>hi</b>" ++ "\n"⟩] ∧
      (Email.Html "R" sampleState "<b>hi</b>").1.e.alternative
        = some { NewWriter "A" with parts := (NewWriter "A").parts ++
          [⟨[("Content-Type", ["multipart/related; boundary=\"" ++ related.Boundary ++ "\""])],
            ""⟩] } ∧
      (Email.Html "R" sampleState "<b>hi</b>").1.e.data = sampleState.e.data ∧
      (Email.Html "R" sampleState "<b>hi</b>").1.calls
        = sampleState.calls ++ [Call.Pipe, Call.GoCopy] :=
  ⟨rfl, rfl, Html_creates_related "R" sampleState "<b>hi</b>" (NewWriter "A") rfl rfl⟩

/-- With a related writer present, `Html` panics and leaves the state as it
was. -/
theorem Html_twice (boundary : String) (s : State) (html : String)
    (h : s.e.html.isSome = true) :
    Email.Html boundary s html = (s, .panic "Cannot call Html twice on Email") := by
  cases hh : s.e.html with
  | none => simp [hh] at h
  | some w => simp [Email.Html, hh]

/-- After a call of `Html` that returned, the related writer is present. -/
theorem Html_returned (boundary : String) (s : State) (html : String)
    (h : (Email.Html boundary s html).2.returned = true) :
    (Email.Html boundary s html).1.e.html.isSome = true := by
  unfold Email.Html at h ⊢
  cases hh : s.e.html with
  | some w => simp [hh, Result.returned] at h
  | none =>
    cases ha : s.e.alternative with
    | none => simp [hh, ha, Result.returned] at h
    | some a => simp [hh, ha]

/-! ## `Send` -/

/-- C3, amended. On a well-formed `Email`, the calls `Send` makes are exactly
the closes of `closeOrder` (the related writer if `Html` was called, the
alternative writer, the body stream), attempted in that order up to and
including the first that fails or does not return; `Send` returns the error of
the failing close, does not return if a close does not return, and returns no
error after the last close; no close is attempted twice, and if every close
returns without an error all of them are performed and `Send` returns
success. -/
theorem Send_closes_in_order (r : CloseResults) (s : State) (hwf : WellFormed s.e) :
    (Email.Send r s).2 = (attemptInOrder r.answer (closeOrder s.e)).2 ∧
    (Email.Send r s).1.calls
      = s.calls ++ (attemptInOrder r.answer (closeOrder s.e)).1.map Call.Close ∧
    (attemptInOrder r.answer (closeOrder s.e)).1.Nodup ∧
    (r.related = .ok → r.alternative = .ok → r.body = .ok →
      attemptInOrder r.answer (closeOrder s.e) = (closeOrder s.e, .ret none)) := by
  obtain ⟨hd, ha⟩ := hwf
  cases hdata : s.e.data with
  | none => simp [hdata] at hd
  | some d =>
    cases halt : s.e.alternative with
    | none => simp [halt] at ha
    | some a =>
      cases hhtml : s.e.html <;> cases hr : r.related <;> cases hra : r.alternative <;>
        cases hrb : r.body <;>
        simp [Email.Send, closeOrder, attemptInOrder, CloseResults.answer, hdata, halt, hhtml,
          hr, hra, hrb]

/-- The send of the sample message with its HTML, when the close of the
alternative writer fails: the related writer is closed, the alternative writer
is attempted, the body stream is left alone. -/
theorem Send_closes_in_order_witness :
    WellFormed sampleHtmlState.e ∧
    (Email.Send ⟨.ok, .fails "broken pipe", .ok⟩ sampleHtmlState).2
      = (attemptInOrder (CloseResults.answer ⟨.ok, .fails "broken pipe", .ok⟩)
          (closeOrder sampleHtmlState.e)).2 ∧
    (Email.Send ⟨.ok, .fails "broken pipe", .ok⟩ sampleHtmlState).1.calls
      = sampleHtmlState.calls ++
        (attemptInOrder (CloseResults.answer ⟨.ok, .fails "broken pipe", .ok⟩)
          (closeOrder sampleHtmlState.e)).1.map Call.Close ∧
    (attemptInOrder (CloseResults.answer ⟨.ok, .fails "broken pipe", .ok⟩)
      (closeOrder sampleHtmlState.e)).1.Nodup ∧
    ((⟨.ok, .fails "broken pipe", .ok⟩ : CloseResults).related = .ok →
      (⟨.ok, .fails "broken pipe", .ok⟩ : CloseResults).alternative = .ok →
      (⟨.ok, .fails "broken pipe", .ok⟩ : CloseResults).body = .ok →
      attemptInOrder (CloseResults.answer ⟨.ok, .fails "broken pipe", .ok⟩)
        (closeOrder sampleHtmlState.e) = (closeOrder sampleHtmlState.e, .ret none)) :=
  ⟨⟨rfl, rfl⟩,
    Send_closes_in_order ⟨.ok, .fails "broken pipe", .ok⟩ sampleHtmlState ⟨rfl, rfl⟩⟩

/-- C3, as stated, fails after `Html`, `Text` and `InlineFile` of a file that
does not exist: all three calls return and leave a well-formed `Email`, nothing
reads the pipe any more, and the close of the related writer never returns.  No
close fails, yet the only close attempted is that of the related writer, the
alternative writer and the body stream are never closed, and `Send` does not
return success. -/
theorem Send_blocks_on_unread_pipe :
    run stalledOps sampleState = some stalledState ∧
    WellFormed stalledState.e ∧
    (Email.Send ⟨.blocks, .ok, .ok⟩ stalledState).2 = .blocked ∧
    (Email.Send ⟨.blocks, .ok, .ok⟩ stalledState).2 ≠ .ret none ∧
    closeAttempts (Email.Send ⟨.blocks, .ok, .ok⟩ stalledState).1.calls = [Closer.related] ∧
    closeOrder stalledState.e = [Closer.related, Closer.alternative, Closer.body] := by
  refine ⟨rfl, ⟨rfl, rfl⟩, ?_, ?_, ?_, ?_⟩ <;> decide

/-- The sample sends, evaluated: with a failing close of the alternative writer
two closes are attempted and its error is returned; with every close returning
all closes are attempted, innermost first. -/
theorem Send_sample_evaluated :
    (Email.Send ⟨.ok, .fails "broken pipe", .ok⟩ sampleHtmlState).2
      = .ret (some "broken pipe") ∧
    closeAttempts (Email.Send ⟨.ok, .fails "broken pipe", .ok⟩ sampleHtmlState).1.calls
      = [Closer.related, Closer.alternative] ∧
    (Email.Send ⟨.ok, .ok, .ok⟩ sampleHtmlState).2 = .ret none ∧
    closeAttempts (Email.Send ⟨.ok, .ok, .ok⟩ sampleHtmlState).1.calls
      = [Closer.related, Closer.alternative, Closer.body] ∧
    closeAttempts (Email.Send ⟨.ok, .ok, .ok⟩ sampleState).1.calls
      = [Closer.alternative, Closer.body] := by
  decide

/-! ## Paths and extensions -/

/-- What the loop of `path.Ext` returns is empty or begins with the dot. -/
theorem extScan_nil_or_dot (cs acc : List Char) :
    extScan cs acc = [] ∨ ∃ rest, extScan cs acc = '.' :: rest := by
  induction cs generalizing acc with
  | nil => exact Or.inl rfl
  | cons c cs ih =>
    unfold extScan
    by_cases h1 : c = '/'
    · simp [h1]
    · by_cases h2 : c = '.'
      · simp [h2]
      · simp only [h1, h2, if_false]
        exact ih _

/-- Lower-casing leaves the dot alone, whatever the Unicode table. -/
theorem lowerRune_dot (table : Char → Char) : lowerRune table '.' = '.' := rfl

/-- An extension that begins with a dot matches no case of the `switch`. -/
theorem mimeTypeOf_dotted (rest : List Char) :
    mimeTypeOf (String.mk ('.' :: rest)) = "image/jpg" := by
  have h1 : String.mk ('.' :: rest) ≠ "png" := by
    intro h; have := congrArg String.data h; simp at this
  have h2 : String.mk ('.' :: rest) ≠ "gif" := by
    intro h; have := congrArg String.data h; simp at this
  have h3 : String.mk ('.' :: rest) ≠ "jpg" := by
    intro h; have := congrArg String.data h; simp at this
  simp [mimeTypeOf, h1, h2, h3]

/-- Whatever the name, the `switch` of `InlineFile` falls to its default:
`path.Ext` returns the extension with its dot, the cases are written without. -/
theorem mimeTypeOf_lower_ext (table : Char → Char) (name : String) :
    mimeTypeOf (ToLower table (Ext name)) = "image/jpg" := by
  unfold ToLower Ext
  rcases extScan_nil_or_dot name.data.reverse [] with h | ⟨rest, h⟩
  · rw [h]; rfl
  · rw [h, List.map_cons, lowerRune_dot]
    exact mimeTypeOf_dotted _

/-- A reversed path that does not begin with a slash has no trailing slash to
strip. -/
theorem trimSlashes_of_head (c : Char) (cs : List Char) (h : c ≠ '/') :
    trimSlashes (c :: cs) = c :: cs := by
  simp [trimSlashes, h]

/-- Without a slash, the walk collects the whole text. -/
theorem lastElem_no_slash (xs acc : List Char) (h : '/' ∉ xs) :
    lastElem xs acc = xs.reverse ++ acc := by
  induction xs generalizing acc with
  | nil => rfl
  | cons x xs ih =>
    have hx : x ≠ '/' := fun e => h (by simp [e])
    have hxs : '/' ∉ xs := fun e => h (by simp [e])
    simp [lastElem, hx, ih _ hxs]

/-- The walk stops at the first slash it meets. -/
theorem lastElem_to_slash (xs rest acc : List Char) (h : '/' ∉ xs) :
    lastElem (xs ++ '/' :: rest) acc = xs.reverse ++ acc := by
  induction xs generalizing acc with
  | nil => simp [lastElem]
  | cons x xs ih =>
    have hx : x ≠ '/' := fun e => h (by simp [e])
    have hxs : '/' ∉ xs := fun e => h (by simp [e])
    simp [lastElem, hx, ih _ hxs]

/-- Go `path.Base` of a non-empty path without a slash is the path. -/
theorem Base_plain (seg : String) (hne : seg ≠ "") (hs : '/' ∉ seg.data) : Base seg = seg := by
  obtain ⟨cs⟩ := seg
  have hcs : cs ≠ [] := fun e => hne (by simp [e])
  have hrev : '/' ∉ cs.reverse := by simpa using hs
  obtain ⟨x, xs, hx⟩ : ∃ x xs, cs.reverse = x :: xs := by
    cases h : cs.reverse with
    | nil => exact absurd (List.reverse_eq_nil_iff.mp h) hcs
    | cons x xs => exact ⟨x, xs, rfl⟩
  have hx1 : x ≠ '/' := fun e => hrev (by simp [hx, e])
  unfold Base
  simp only [hne, if_false, hx, trimSlashes_of_head x xs hx1]
  rw [← hx, lastElem_no_slash _ _ hrev]
  simp [hcs]

/-- Go `path.Base` returns the final segment of a path that ends in one. -/
theorem Base_final_segment (dir seg : String) (hne : seg ≠ "") (hs : '/' ∉ seg.data) :
    Base (dir ++ "/" ++ seg) = seg := by
  obtain ⟨cs⟩ := seg
  obtain ⟨ds⟩ := dir
  have hcs : cs ≠ [] := fun e => hne (by simp [e])
  have hrev : '/' ∉ cs.reverse := by simpa using hs
  obtain ⟨x, xs, hx⟩ : ∃ x xs, cs.reverse = x :: xs := by
    cases h : cs.reverse with
    | nil => exact absurd (List.reverse_eq_nil_iff.mp h) hcs
    | cons x xs => exact ⟨x, xs, rfl⟩
  have hx1 : x ≠ '/' := fun e => hrev (by simp [hx, e])
  have hpath : (String.mk ds ++ "/" ++ String.mk cs) ≠ "" := by
    intro e; have := congrArg String.data e; simp at this
  have hdata : (String.mk ds ++ "/" ++ String.mk cs).data.reverse
      = cs.reverse ++ '/' :: ds.reverse := by
    simp [String.data_append]
  unfold Base
  simp only [hpath, if_false, hdata]
  rw [hx, List.cons_append, trimSlashes_of_head x _ hx1, ← List.cons_append, ← hx,
    lastElem_to_slash _ _ _ hrev]
  simp [hcs]

/-! ## `InlineFile` -/

/-- Without a related writer, `InlineFile` panics and leaves the state as it
was. -/
theorem InlineFile_panics (fs : FileSystem) (s : State) (filename : String)
    (h : s.e.html = none) :
    Email.InlineFile fs s filename
      = (s, .panic "You must call Html(..) before you can call InlineFile") := by
  simp [Email.InlineFile, h]

/-- The related writer after `InlineFile`: one new part, with the four headers
built from the name; its body depends on the file. -/
theorem InlineFile_html (fs : FileSystem) (s : State) (filename : String) (related : Writer)
    (h : s.e.html = some related) :
    ∃ body, (Email.InlineFile fs s filename).1.e.html = some { related with parts :=
      related.parts ++
        [⟨[("Content-Type",
            [mimeTypeOf (ToLower fs.unicodeLower (Ext (Base filename))) ++ "; name=\""
              ++ Base filename ++ "\""]),
           ("Content-ID", ["<" ++ Base filename ++ ">"]),
           ("Content-Disposition", ["inline; filename=\"" ++ Base filename ++ "\""]),
           ("Content-Transfer-Encoding", ["base64"])], body⟩] } := by
  unfold Email.InlineFile
  simp only [h]
  cases hopen : fs.Open filename with
  | error err => exact ⟨"", by simp [Writer.CreatePart]⟩
  | ok fileIn =>
    cases hcopy : fileIn.copyErr with
    | some err =>
      exact ⟨"" ++ fileIn.copied, by simp [Writer.CreatePart, write_last, hcopy]⟩
    | none =>
      exact ⟨"" ++ fileIn.copied ++ fileIn.flushed,
        by simp [Writer.CreatePart, write_last, hcopy]⟩

/-- The body stream and the top-level writer are not touched by `InlineFile`. -/
theorem InlineFile_keeps (fs : FileSystem) (s : State) (filename : String) :
    (Email.InlineFile fs s filename).1.e.data = s.e.data ∧
    (Email.InlineFile fs s filename).1.e.alternative = s.e.alternative := by
  unfold Email.InlineFile
  cases s.e.html with
  | none => exact ⟨rfl, rfl⟩
  | some related =>
    cases hopen : fs.Open filename with
    | error err => simp
    | ok fileIn => cases hcopy : fileIn.copyErr <;> simp [hcopy]

/-- C9. With a related writer present, `InlineFile filename` creates exactly
one part on it; with `name` the final segment of the path (`path.Base`), the
part has the Content-ID `<name>`, a Content-Type whose `name` parameter is
`name`, the Content-Disposition `inline` with the `filename` `name`, and the
Content-Transfer-Encoding `base64`. -/
theorem InlineFile_part_headers (fs : FileSystem) (s : State) (filename : String)
    (related : Writer) (h : s.e.html = some related) :
    ∃ part,
      (Email.InlineFile fs s filename).1.e.html
        = some { related with parts := related.parts ++ [part] } ∧
      part.header.values "Content-ID" = ["<" ++ Base filename ++ ">"] ∧
      part.header.values "Content-Type"
        = [mimeTypeOf (ToLower fs.unicodeLower (Ext (Base filename))) ++ "; name=\""
            ++ Base filename ++ "\""] ∧
      part.header.values "Content-Disposition"
        = ["inline; filename=\"" ++ Base filename ++ "\""] ∧
      part.header.values "Content-Transfer-Encoding" = ["base64"] ∧
      (∀ dir seg : String, seg ≠ "" → '/' ∉ seg.data →
        filename = seg ∨ filename = dir ++ "/" ++ seg → Base filename = seg) := by
  obtain ⟨body, hbody⟩ := InlineFile_html fs s filename related h
  refine ⟨_, hbody, rfl, rfl, rfl, rfl, ?_⟩
  intro dir seg hne hs hf
  rcases hf with hf | hf
  · rw [hf]; exact Base_plain seg hne hs
  · rw [hf]; exact Base_final_segment dir seg hne hs

/-- The inline file `img/logo.png` on the sample message with its HTML. -/
theorem InlineFile_part_headers_witness :
    sampleHtmlState.e.html
      = some ⟨"R", [⟨[("Content-Type", ["text/html"])], "<b>hi</b>\n"⟩], false⟩ ∧
    ∃ part,
      (Email.InlineFile FileSystem.empty sampleHtmlState "img/logo.png").1.e.html
        = some { (⟨"R", [⟨[("Content-Type", ["text/html"])], "<b>hi</b>\n"⟩], false⟩ : Writer)
            with parts := [⟨[("Content-Type", ["text/html"])], "<b>hi</b>\n"⟩] ++ [part] } ∧
      part.header.values "Content-ID" = ["<" ++ Base "img/logo.png" ++ ">"] ∧
      part.header.values "Content-Type"
        = [mimeTypeOf (ToLower FileSystem.empty.unicodeLower (Ext (Base "img/logo.png")))
            ++ "; name=\"" ++ Base "img/logo.png" ++ "\""] ∧
      part.header.values "Content-Disposition"
        = ["inline; filename=\"" ++ Base "img/logo.png" ++ "\""] ∧
      part.header.values "Content-Transfer-Encoding" = ["base64"] ∧
      (∀ dir seg : String, seg ≠ "" → '/' ∉ seg.data →
        "img/logo.png" = seg ∨ "img/logo.png" = dir ++ "/" ++ seg → Base "img/logo.png" = seg) :=
  ⟨rfl, InlineFile_part_headers FileSystem.empty sampleHtmlState "img/logo.png"
    ⟨"R", [⟨[("Content-Type", ["text/html"])], "<b>hi</b>\n"⟩], false⟩ rfl⟩

/-- C4, amended. With a related writer present, the content type `InlineFile`
declares is the default `image/jpg` whenever the lower-cased extension of the
final segment of the path is none of `.png`, `.gif` and `.jpg`: so for `.jpeg`
and for a missing extension. -/
theorem InlineFile_default_content_type (fs : FileSystem) (s : State) (filename : String)
    (related : Writer) (h : s.e.html = some related)
    (_hext : ToLower fs.unicodeLower (Ext (Base filename)) ∉ [".png", ".gif", ".jpg"]) :
    ∃ part,
      (Email.InlineFile fs s filename).1.e.html
        = some { related with parts := related.parts ++ [part] } ∧
      part.header.values "Content-Type" = ["image/jpg; name=\"" ++ Base filename ++ "\""] := by
  obtain ⟨body, hbody⟩ := InlineFile_html fs s filename related h
  rw [mimeTypeOf_lower_ext] at hbody
  exact ⟨_, hbody, rfl⟩

/-- The inline file `notes/README`, which has no extension, on the sample
message with its HTML. -/
theorem InlineFile_default_content_type_witness :
    sampleHtmlState.e.html
      = some ⟨"R", [⟨[("Content-Type", ["text/html"])], "<b>hi</b>\n"⟩], false⟩ ∧
    ToLower FileSystem.empty.unicodeLower (Ext (Base "notes/README")) ∉ [".png", ".gif", ".jpg"] ∧
    ∃ part,
      (Email.InlineFile FileSystem.empty sampleHtmlState "notes/README").1.e.html
        = some { (⟨"R", [⟨[("Content-Type", ["text/html"])], "<b>hi</b>\n"⟩], false⟩ : Writer)
            with parts := [⟨[("Content-Type", ["text/html"])], "<b>hi</b>\n"⟩] ++ [part] } ∧
      part.header.values "Content-Type" = ["image/jpg; name=\"" ++ Base "notes/README" ++ "\""] :=
  ⟨rfl, by decide,
    InlineFile_default_content_type FileSystem.empty sampleHtmlState "notes/README"
      ⟨"R", [⟨[("Content-Type", ["text/html"])], "<b>hi</b>\n"⟩], false⟩ rfl (by decide)⟩

/-- C4, as stated, fails at `img/photo.jpeg`: the part is declared
`image/jpg`, not `image/jpeg`. -/
theorem InlineFile_jpeg_is_not_image_jpeg :
    declaredContentType
        (Email.InlineFile (FileSystem.single "img/photo.jpeg" ⟨"/9j/4AAQ", none, "SkY="⟩)
          sampleHtmlState "img/photo.jpeg").1
      = ["image/jpg; name=\"photo.jpeg\""] ∧
    declaredContentType
        (Email.InlineFile (FileSystem.single "img/photo.jpeg" ⟨"/9j/4AAQ", none, "SkY="⟩)
          sampleHtmlState "img/photo.jpeg").1
      ≠ ["image/jpeg; name=\"photo.jpeg\""] := by
  decide

/-- The file `logo.png` is declared `image/jpg` as well: its extension is
`.png`, and the `switch` looks for `png`. -/
theorem InlineFile_png_declared_jpg :
    declaredContentType
        (Email.InlineFile (FileSystem.single "logo.png" ⟨"iVBORw0K", none, "Gg=="⟩)
          sampleHtmlState "logo.png").1
      = ["image/jpg; name=\"logo.png\""] := by
  decide

/-! ## Sequences of calls -/

/-- No call removes the related writer. -/
theorem step_keeps_html (op : Op) (s : State) (h : s.e.html.isSome = true) :
    (op.step s).1.e.html.isSome = true := by
  cases op with
  | Text text =>
    simp only [Op.step, Email.Text]
    cases s.e.alternative <;> simpa using h
  | Html boundary html =>
    simp only [Op.step, Html_twice boundary s html h]
    exact h
  | InlineFile fs filename =>
    cases hh : s.e.html with
    | none => simp [hh] at h
    | some related =>
      obtain ⟨body, hbody⟩ := InlineFile_html fs s filename related hh
      simp only [Op.step, hbody, Option.isSome_some]
  | Send r =>
    simp only [Op.step, Email.Send]
    cases hh : s.e.html with
    | none => simp [hh] at h
    | some related =>
      cases r.related <;> cases s.e.alternative <;> cases r.alternative <;> cases s.e.data <;>
        cases r.body <;> simp [hh]

/-- No call makes a well-formed `Email` ill formed. -/
theorem step_keeps_wellFormed (op : Op) (s : State) (h : WellFormed s.e) :
    WellFormed (op.step s).1.e := by
  obtain ⟨hd, ha⟩ := h
  cases hdata : s.e.data with
  | none => simp [hdata] at hd
  | some d =>
    cases halt : s.e.alternative with
    | none => simp [halt] at ha
    | some a =>
      cases op with
      | Text text => simp [Op.step, Text_eq s text a halt, WellFormed, hdata]
      | Html boundary html =>
        cases hh : s.e.html with
        | none => simp [Op.step, Html_eq boundary s html a hh halt, WellFormed, hdata]
        | some w =>
          simp [Op.step, Html_twice boundary s html (by simp [hh]), WellFormed, hdata, halt]
      | InlineFile fs filename =>
        obtain ⟨h1, h2⟩ := InlineFile_keeps fs s filename
        simp [Op.step, WellFormed, h1, h2, hdata, halt]
      | Send r =>
        cases hh : s.e.html <;> cases hr : r.related <;> cases hra : r.alternative <;>
          cases hrb : r.body <;>
          simp [Op.step, Email.Send, WellFormed, hdata, halt, hh, hr, hra, hrb]

/-- Once present, the related writer stays through any sequence of calls. -/
theorem run_keeps_html (ops : List Op) (s s' : State) (h : s.e.html.isSome = true)
    (hrun : run ops s = some s') : s'.e.html.isSome = true := by
  induction ops generalizing s with
  | nil =>
    simp only [run, Option.some.injEq] at hrun
    exact hrun ▸ h
  | cons op ops ih =>
    have hstep := step_keeps_html op s h
    unfold run at hrun
    rcases hs : op.step s with ⟨s1, b⟩
    rw [hs] at hrun hstep
    cases b with
    | true => exact ih s1 hstep hrun
    | false => simp at hrun

/-- After a sequence of calls that contains an `Html` and in which every call
returned, the related writer is present. -/
theorem run_after_Html (ops : List Op) (s s' : State) (boundary html : String)
    (hmem : Op.Html boundary html ∈ ops) (hrun : run ops s = some s') :
    s'.e.html.isSome = true := by
  induction ops generalizing s with
  | nil => simp at hmem
  | cons op ops ih =>
    unfold run at hrun
    rcases hs : op.step s with ⟨s1, b⟩
    rw [hs] at hrun
    cases b with
    | false => simp at hrun
    | true =>
      rcases List.mem_cons.mp hmem with heq | htail
      · subst heq
        simp only [Op.step, Prod.mk.injEq] at hs
        have := Html_returned boundary s html hs.2
        rw [hs.1] at this
        exact run_keeps_html ops s1 s' this hrun
      · exact ih s1 htail hrun

/-- Any number of `Text` calls on an `Email` without a related writer return
and leave it without one. -/
theorem run_texts (texts : List String) (s : State) (halt : s.e.alternative.isSome = true)
    (hhtml : s.e.html = none) :
    ∃ s', run (texts.map Op.Text) s = some s' ∧ s'.e.html = none := by
  induction texts generalizing s with
  | nil => exact ⟨s, rfl, hhtml⟩
  | cons text texts ih =>
    cases ha : s.e.alternative with
    | none => simp [ha] at halt
    | some alternative =>
      have h1 := Text_eq s text alternative ha
      have := ih (Email.Text s text).1 (by simp [h1]) (by simp [h1, hhtml])
      simpa [run, Op.step, h1, Result.returned] using this

/-- C1. After any sequence of calls (`Text`, `Html`, `InlineFile` with or
without an error, `Send`) that contains an `Html` and in which every call
returned, a further `Html` with any content panics, and the state at the panic
is the state before the call: no pipe, writer or part has been created, no
byte written, and the related writer is the one that was there. -/
theorem Html_second_call_panics (ops : List Op) (s0 s : State) (boundary html : String)
    (boundary2 html2 : String)
    (hcalled : Op.Html boundary html ∈ ops) (hrun : run ops s0 = some s) :
    Email.Html boundary2 s html2 = (s, .panic "Cannot call Html twice on Email") :=
  Html_twice boundary2 s html2 (run_after_Html ops s0 s boundary html hcalled hrun)

/-- A second `Html` after the sample sequence of calls. -/
theorem Html_second_call_panics_witness :
    Op.Html "R" "<b>hi</b>" ∈ sampleOps ∧ run sampleOps sampleState = some sampleFinalState ∧
    Email.Html "R2" sampleFinalState "<i>again</i>"
      = (sampleFinalState, .panic "Cannot call Html twice on Email") :=
  ⟨by simp [sampleOps], rfl,
    Html_second_call_panics sampleOps sampleState sampleFinalState "R" "<b>hi</b>" "R2"
      "<i>again</i>" (by simp [sampleOps]) rfl⟩

/-- C2. On an `Email` returned by `New`, after any number of `Text` calls and
no `Html`, `InlineFile` with any path panics, and the state at the panic is the
state before the call: no part has been created, no file opened, no byte
written. -/
theorem InlineFile_before_Html_panics (t : Transport) (server frm rcpt subject : String)
    (calls : List Call) (e : Email) (hnew : New t server frm rcpt subject = (calls, .ok e))
    (texts : List String) (fs : FileSystem) (filename : String) :
    ∃ s, run (texts.map Op.Text) ⟨e, calls⟩ = some s ∧
      Email.InlineFile fs s filename
        = (s, .panic "You must call Html(..) before you can call InlineFile") := by
  have he := New_ok t server frm rcpt subject calls e hnew
  obtain ⟨s, hs, hhtml⟩ := run_texts texts ⟨e, calls⟩ (by simp [he]) (by simp [he])
  exact ⟨s, hs, InlineFile_panics fs s filename hhtml⟩

/-- An inline file on the sample message after two texts. -/
theorem InlineFile_before_Html_panics_witness :
    New (Transport.allOk "A") "" "me@example.com" "a@example.com" "Hi"
      = (sampleState.calls, .ok sampleState.e) ∧
    ∃ s, run (["hello", "world"].map Op.Text) ⟨sampleState.e, sampleState.calls⟩ = some s ∧
      Email.InlineFile FileSystem.empty s "logo.png"
        = (s, .panic "You must call Html(..) before you can call InlineFile") :=
  ⟨rfl, InlineFile_before_Html_panics (Transport.allOk "A") "" "me@example.com" "a@example.com"
    "Hi" sampleState.calls sampleState.e rfl ["hello", "world"] FileSystem.empty "logo.png"⟩

end Gomail
